import Mathlib

/-!
Verification of the DefraDB peer replication subsystem: a shallow embedding of
the LWW-Register CRDT merge (crdt package), the pubsub topic manager and
inbound push-log handler (net server), and the replicator registry (net peer),
with theorems settling the specification claims about them.

Bytes are modelled as `List Nat`, identifiers (CIDs, doc keys, schema ids,
peer ids, topic names) as `Nat`.  Stateful Go code becomes explicit state
passing; fallible steps return `Except` or carry an error field.
-/

/-- Go bytes.Compare: lexicographic three-way comparison of byte slices. -/
def bytesCompare : List Nat → List Nat → Int
  | [], [] => 0
  | [], _ :: _ => -1
  | _ :: _, [] => 1
  | a :: as, b :: bs =>
    if a < b then -1 else if b < a then 1 else bytesCompare as bs

/-- CRDT-type marker byte for LWW registers (client.LWW_REGISTER). -/
def LWW_REGISTER : Nat := 1

/-- Sentinel byte marking a deleted object (base.DeletedObjectMarker). -/
def DeletedObjectMarker : Nat := 2

/-- The slice of the datastore an LWWRegister reads and writes: the value
stored under the value-flag key (and its deleted-flag variant), the bytes at
the primary data store key (the deletion marker), and the stored priority.

The `priority` field is modelled from the spec: baseCRDT getPriority and
setPriority are not part of the provided sources; per the spec the merge
"compares delta.Priority with the stored priority for the key" and an
overwrite "records the new priority". -/
structure LWWStore where
  priority : Nat
  marker : Option (List Nat)
  valNormal : Option (List Nat)
  valDeleted : Option (List Nat)
deriving DecidableEq, Repr

/-- Whether the document is marked deleted: the bytes at the primary data
store key equal the deleted-object sentinel, so reads and writes use the
deleted-flag variant of the value key. -/
def deletedFlagActive (st : LWWStore) : Bool :=
  decide (st.marker = some [DeletedObjectMarker])

/-- The raw bytes currently stored at the value key setValue reads and
writes (deleted-flag variant when the deletion marker is set). -/
def storedRaw (st : LWWStore) : Option (List Nat) :=
  if deletedFlagActive st then st.valDeleted else st.valNormal

/-- Drop the first byte (the CRDT-type marker) when the value is non-empty,
mirroring the guarded slice in setValue. -/
def stripMarker (bs : List Nat) : List Nat :=
  if bs.length > 0 then bs.tail else bs

/-- The overwrite tail of setValue: prepend the CRDT-type marker byte to the
value, store it under the (possibly deleted-flagged) value key, and record
the new priority. -/
def writeValue (st : LWWStore) (val : List Nat) (p : Nat) : LWWStore :=
  let buf := LWW_REGISTER :: val
  if deletedFlagActive st then
    { st with valDeleted := some buf, priority := p }
  else
    { st with valNormal := some buf, priority := p }

/-- LWWRegister.setValue: ignore the put when the incoming priority is below
the stored one; at equal priority keep the stored value unless it is
lexicographically smaller than the incoming bytes (the failed or absent
current-value lookup is ignored and treated as empty bytes); otherwise
overwrite. -/
def setValue (st : LWWStore) (val : List Nat) (p : Nat) : LWWStore :=
  if p < st.priority then st
  else if p = st.priority then
    if bytesCompare (stripMarker ((storedRaw st).getD [])) val ≥ 0 then st
    else writeValue st val p
  else writeValue st val p

/-- LWWRegDelta: a single delta operation for an LWWRegister. -/
structure LWWRegDelta where
  SchemaVersionID : Nat
  Priority : Nat
  Data : List Nat
  DocKey : List Nat
deriving DecidableEq, Repr

/-- core.Delta as seen by LWWRegister.Merge: either an LWW register delta or
a delta of some other replicated type. -/
inductive Delta where
  | lww (d : LWWRegDelta)
  | other
deriving DecidableEq, Repr

/-- Typed CRDT errors. -/
inductive CRDTError where
  | mismatchedMergeType
deriving DecidableEq, Repr

/-- LWWRegister.Merge: type-check the delta and apply setValue with the
delta's data and priority. -/
def LWWRegister.Merge (st : LWWStore) (delta : Delta) : Except CRDTError LWWStore :=
  match delta with
  | Delta.lww d => Except.ok (setValue st d.Data d.Priority)
  | Delta.other => Except.error CRDTError.mismatchedMergeType

/-- The server's topic table: each entry pairs a topic name with its live
handle (rpc.Topic, modelled as a numbered handle) and the subscribed flag.
New handles are numbered by nextHandle; handles whose Close was called are
collected in closed. -/
structure TopicMap where
  topics : List (Nat × Nat × Bool)
  nextHandle : Nat
  closed : List Nat
deriving DecidableEq, Repr

/-- Lookup of a topic entry in the table: the handle and subscribed flag. -/
def lookupEntries : List (Nat × Nat × Bool) → Nat → Option (Nat × Bool)
  | [], _ => none
  | (n, h, s) :: rest, name => if n = name then some (h, s) else lookupEntries rest name

/-- Lookup of a topic in the topic map. -/
def lookupTopic (tm : TopicMap) (name : Nat) : Option (Nat × Bool) :=
  lookupEntries tm.topics name

/-- server.hasPubSubTopic: membership test on the topic table. -/
def hasPubSubTopic (tm : TopicMap) (name : Nat) : Bool :=
  (lookupTopic tm name).isSome

/-- Go map assignment on an existing key: replace the entry for the name. -/
def setTopicEntry : List (Nat × Nat × Bool) → Nat → Nat × Bool → List (Nat × Nat × Bool)
  | [], _, _ => []
  | (n, h, s) :: rest, name, v =>
    if n = name then (name, v.1, v.2) :: setTopicEntry rest name v
    else (n, h, s) :: setTopicEntry rest name v

/-- server.addPubSubTopic: if the topic is present publish-only and subscribe
is requested, close the existing handle and store a freshly created
subscribed one; if present otherwise, return with no change; if absent,
create and store a handle with the requested subscribe mode. -/
def addPubSubTopic (tm : TopicMap) (name : Nat) (subscribe : Bool) : TopicMap :=
  match lookupTopic tm name with
  | some (h, subscribed) =>
    if !subscribed && subscribe then
      { topics := setTopicEntry tm.topics name (tm.nextHandle, subscribe),
        nextHandle := tm.nextHandle + 1,
        closed := h :: tm.closed }
    else tm
  | none =>
    { topics := tm.topics ++ [(name, tm.nextHandle, subscribe)],
      nextHandle := tm.nextHandle + 1,
      closed := tm.closed }

/-- server.publishLog: if the topic is absent, create it publish-only and
retry, which then publishes; returns the updated map and the list of topics
the request was published on. -/
def publishLog (tm : TopicMap) (topic : Nat) : TopicMap × List Nat :=
  match lookupTopic tm topic with
  | none => (addPubSubTopic tm topic false, [topic])
  | some _ => (tm, [topic])

/-- events.Update as seen by the broadcast loop. -/
structure Update where
  DocKey : Nat
  Cid : Nat
  SchemaID : Nat
  Priority : Nat
deriving DecidableEq, Repr

/-- Peer.RegisterNewDocument: add a docKey topic whose subscribe flag is the
negation of hasPubSubTopic on the schema id, then publish the push-log
request via publishLog on the schema id topic.  (The direct pushes to
replicators performed by the caller are modelled separately.) -/
def RegisterNewDocument (tm : TopicMap) (dockey schemaId : Nat) : TopicMap × List Nat :=
  let tm1 := addPubSubTopic tm dockey (!(hasPubSubTopic tm schemaId))
  publishLog tm1 schemaId

/-- Peer.handleDocUpdateLog restricted to its topic effects: publish the
request on the docKey topic and then on the schema id topic. -/
def handleDocUpdateLog (tm : TopicMap) (dockey schemaId : Nat) : TopicMap × List Nat :=
  let r1 := publishLog tm dockey
  let r2 := publishLog r1.1 schemaId
  (r2.1, r1.2 ++ r2.2)

/-- One iteration of Peer.handleBroadcastLoop: priority 1 is a new-document
log handled by handleDocCreateLog (which calls RegisterNewDocument),
priority above 1 is an update log, and priority 0 is logged and skipped. -/
def handleBroadcastStep (tm : TopicMap) (u : Update) : TopicMap × List Nat :=
  if u.Priority = 1 then RegisterNewDocument tm u.DocKey u.SchemaID
  else if u.Priority > 1 then handleDocUpdateLog tm u.DocKey u.SchemaID
  else (tm, [])

/-- Decidable equality for Except values, needed to evaluate the push-log
model on concrete inputs. -/
instance {e a : Type} [DecidableEq e] [DecidableEq a] : DecidableEq (Except e a)
  | Except.error x, Except.error y =>
    if h : x = y then Decidable.isTrue (by rw [h])
    else Decidable.isFalse (fun hc => h (Except.error.injEq x y ▸ hc))
  | Except.error _, Except.ok _ => Decidable.isFalse (fun hc => Except.noConfusion hc)
  | Except.ok _, Except.error _ => Decidable.isFalse (fun hc => Except.noConfusion hc)
  | Except.ok x, Except.ok y =>
    if h : x = y then Decidable.isTrue (by rw [h])
    else Decidable.isFalse (fun hc => h (Except.ok.injEq x y ▸ hc))

/-- Decoded content of the merkle-DAG block a push-log request carries: the
delta it holds and the parent CIDs it links to. -/
structure BlockContent where
  delta : LWWRegDelta
  children : List Nat
deriving DecidableEq, Repr

/-- pb.PushLogRequest together with the outcome, for this request, of the two
fallible steps of the handler that depend on the carried block bytes and the
local store: decodeBlockBuffer on the block (decodeResult, carrying an error
code on failure) and peer.processLog (processLogFails). -/
structure PushLogRequest where
  Cid : Nat
  DocKey : Nat
  SchemaID : Nat
  Creator : Nat
  decodeResult : Except Nat BlockContent
  processLogFails : Bool
deriving DecidableEq, Repr

/-- The state the push-log handler mutates: the block store, the topic table,
the CRDT register state the merges land in (one document field in view),
a count of CRDT merge side-effects, and a count of emitted
EvtReceivedPushLog events. -/
structure ServerState where
  blockstore : List Nat
  tm : TopicMap
  crdt : LWWStore
  merges : Nat
  pushLogEvents : Nat
deriving DecidableEq, Repr

/-- Errors PushLog returns; the decode failure wraps the original cause. -/
inductive PushErr where
  | failedToDecodeBlock (cause : Nat)
deriving DecidableEq, Repr

/-- Result of one PushLog delivery: the resulting state, the reply (success
or error), and whether the handler committed its transaction. -/
structure PushLogOutcome where
  state : ServerState
  reply : Except PushErr Unit
  committed : Bool
deriving DecidableEq, Repr

/-- The deferred emission of EvtReceivedPushLog that runs on every exit of
PushLog (emitter present). -/
def emitPushLog (st : ServerState) : ServerState :=
  { st with pushLogEvents := st.pushLogEvents + 1 }

/-- Modelled from the spec: peer.processLog (net process code, not among the
provided sources) stores the block, decodes its delta, merges it into the
CRDT, and returns the parent CIDs referenced by the block that are not yet
locally present.  Failure is modelled by the request's processLogFails
outcome flag. -/
def processLog (st : ServerState) (req : PushLogRequest) (content : BlockContent) :
    Except Nat (ServerState × List Nat) :=
  if req.processLogFails then Except.error 0
  else Except.ok
    ({ st with
        blockstore := st.blockstore ++ [req.Cid],
        crdt := setValue st.crdt content.delta.Data content.delta.Priority,
        merges := st.merges + 1 },
     content.children.filter (fun c => !(st.blockstore.contains c)))

/-- The tail of a committed PushLog iteration: subscribe to the docKey topic
unless the collection (schema id) topic is already present. -/
def subscribeAfterCommit (st : ServerState) (req : PushLogRequest) : ServerState :=
  if hasPubSubTopic st.tm req.SchemaID then st
  else { st with tm := addPubSubTopic st.tm req.DocKey true }

/-- server.PushLog under sequential delivery (the docQueue and the
queuedChildren visit set admit the caller, and the transaction commits
without conflict; collection lookup succeeds).  The deferred event emission
applies to every exit.  If the block is already in the block store the
request returns success immediately; a decode failure returns the wrapped
error without committing; a processLog failure is only logged, after which
the handler commits and subscribes exactly as on success. -/
def pushLog (st : ServerState) (req : PushLogRequest) : PushLogOutcome :=
  if req.Cid ∈ st.blockstore then
    { state := emitPushLog st, reply := Except.ok (), committed := false }
  else
    match req.decodeResult with
    | Except.error cause =>
      { state := emitPushLog st,
        reply := Except.error (PushErr.failedToDecodeBlock cause),
        committed := false }
    | Except.ok content =>
      match processLog st req content with
      | Except.error _ =>
        { state := emitPushLog (subscribeAfterCommit st req),
          reply := Except.ok (), committed := true }
      | Except.ok (st1, _children) =>
        { state := emitPushLog (subscribeAfterCommit st1 req),
          reply := Except.ok (), committed := true }

/-- The state SetReplicator and DeleteReplicator mutate: the in-memory
schema-id to peer-set replicator map, the set of peers whose multiaddrs were
added to the peerstore, and the persisted replicator records (peer with its
schema list). -/
structure RepState where
  replicators : List (Nat × List Nat)
  peerstore : List Nat
  persisted : List (Nat × List Nat)
deriving DecidableEq, Repr

/-- Validation and persistence errors of the replicator registry. -/
inductive RepErr where
  | selfTarget
  | duplicateReplicator
  | persistFailed
deriving DecidableEq, Repr

/-- Result of a replicator registry call: final state and optional error. -/
structure RepOutcome where
  state : RepState
  err : Option RepErr
deriving DecidableEq, Repr

/-- Lookup of a schema's peer set in the replicator map. -/
def lookupReps : List (Nat × List Nat) → Nat → Option (List Nat)
  | [], _ => none
  | (s, ps) :: rest, schema => if s = schema then some ps else lookupReps rest schema

/-- Add a peer to a schema's set in the replicator map, creating the entry
when absent (mirrors the map-initialise-then-assign in setReplicator). -/
def insertRep : List (Nat × List Nat) → Nat → Nat → List (Nat × List Nat)
  | [], schema, pid => [(schema, [pid])]
  | (s, ps) :: rest, schema, pid =>
    if s = schema then (s, ps ++ [pid]) :: rest
    else (s, ps) :: insertRep rest schema pid

/-- The per-collection loop of setReplicator: for each schema, error out on a
duplicate (schema, peer) pair keeping the additions already made, otherwise
add the peer to the schema's set. -/
def addToReplicators (pid : Nat) :
    List Nat → List (Nat × List Nat) → List (Nat × List Nat) × Bool
  | [], reps => (reps, false)
  | schema :: rest, reps =>
    match lookupReps reps schema with
    | some ps =>
      if ps.contains pid then (reps, true)
      else addToReplicators pid rest (insertRep reps schema pid)
    | none => addToReplicators pid rest (insertRep reps schema pid)

/-- Peer.setReplicator with collection names already resolved to schema ids
(the resolution only reads the store) and the target peer id already
extracted from the multiaddr: reject the node's own peer id before touching
any state; add the peer's address to the peerstore; run the duplicate check
and in-memory additions; then persist the replicator record, whose failure
(persistFails) returns an error after the in-memory additions were made.
The per-document head pushes that follow do not mutate this state. -/
def setReplicator (st : RepState) (selfId pid : Nat) (schemas : List Nat)
    (persistFails : Bool) : RepOutcome :=
  if pid = selfId then { state := st, err := some RepErr.selfTarget }
  else
    let st1 := { st with
      peerstore := if st.peerstore.contains pid then st.peerstore
                   else st.peerstore ++ [pid] }
    let added := addToReplicators pid schemas st.replicators
    let st2 := { st1 with replicators := added.1 }
    if added.2 then { state := st2, err := some RepErr.duplicateReplicator }
    else if persistFails then { state := st2, err := some RepErr.persistFailed }
    else { state := { st2 with persisted := st2.persisted ++ [(pid, schemas)] },
           err := none }

/-- Peer.deleteReplicator with collection names already resolved to schema
ids: reject the node's own peer id first; remove the peer from each listed
schema's set; if the peer remains in no other schema, clear its peerstore
addresses; finally delete the persisted record for the peer (db-side delete
modelled from the spec, which persists the updated entry). -/
def deleteReplicator (st : RepState) (selfId pid : Nat) (schemas : List Nat) :
    RepOutcome :=
  if pid = selfId then { state := st, err := some RepErr.selfTarget }
  else
    let reps := st.replicators.map (fun e =>
      if e.2.contains pid && schemas.contains e.1 then (e.1, e.2.erase pid) else e)
    let totalSchemas :=
      (st.replicators.filter (fun e => e.2.contains pid && !(schemas.contains e.1))).length
    { state :=
        { replicators := reps,
          peerstore := if totalSchemas = 0 then st.peerstore.erase pid else st.peerstore,
          persisted := st.persisted.filter (fun e => e.1 ≠ pid) },
      err := none }

/-! ### Helper lemmas -/

theorem writeValue_priority (st : LWWStore) (val : List Nat) (p : Nat) :
    (writeValue st val p).priority = p := by
  unfold writeValue
  split <;> rfl

theorem storedRaw_writeValue (st : LWWStore) (val : List Nat) (p : Nat) :
    storedRaw (writeValue st val p) = some (LWW_REGISTER :: val) := by
  unfold writeValue storedRaw deletedFlagActive
  by_cases h : st.marker = some [DeletedObjectMarker] <;> simp [h]

theorem lookupEntries_set_self (ts : List (Nat × Nat × Bool)) (name : Nat)
    (v : Nat × Bool) (w : Nat × Bool) (h : lookupEntries ts name = some w) :
    lookupEntries (setTopicEntry ts name v) name = some v := by
  induction ts with
  | nil => simp [lookupEntries] at h
  | cons e rest ih =>
    obtain ⟨n, hd, s⟩ := e
    by_cases hn : n = name
    · subst hn
      simp [lookupEntries, setTopicEntry]
    · simp [lookupEntries, setTopicEntry, hn] at h ⊢
      exact ih h

theorem lookupEntries_set_ne (ts : List (Nat × Nat × Bool)) (name n : Nat)
    (v : Nat × Bool) (hne : n ≠ name) :
    lookupEntries (setTopicEntry ts name v) n = lookupEntries ts n := by
  induction ts with
  | nil => rfl
  | cons e rest ih =>
    obtain ⟨m, hd, s⟩ := e
    by_cases hm : m = name
    · subst hm
      simp [lookupEntries, setTopicEntry, Ne.symm hne, ih]
    · by_cases hmn : m = n
      · subst hmn
        simp [lookupEntries, setTopicEntry, hm]
      · simp [lookupEntries, setTopicEntry, hm, hmn, ih]

theorem lookupEntries_append_none (ts : List (Nat × Nat × Bool)) (name hid : Nat)
    (s : Bool) (h : lookupEntries ts name = none) :
    lookupEntries (ts ++ [(name, hid, s)]) name = some (hid, s) := by
  induction ts with
  | nil => simp [lookupEntries]
  | cons e rest ih =>
    obtain ⟨m, hd, sb⟩ := e
    by_cases hm : m = name
    · simp [lookupEntries, hm] at h
    · simp [lookupEntries, hm] at h ⊢
      exact ih h

theorem lookupEntries_append_ne (ts : List (Nat × Nat × Bool)) (m hid : Nat)
    (s : Bool) (n : Nat) (hne : m ≠ n) :
    lookupEntries (ts ++ [(m, hid, s)]) n = lookupEntries ts n := by
  induction ts with
  | nil => simp [lookupEntries, hne]
  | cons e rest ih =>
    obtain ⟨k, hd, sb⟩ := e
    by_cases hk : k = n
    · simp [lookupEntries, hk]
    · simp [lookupEntries, hk, ih]

theorem lookupTopic_addPubSubTopic_fresh (tm : TopicMap) (name : Nat) (sub : Bool)
    (h : lookupTopic tm name = none) :
    lookupTopic (addPubSubTopic tm name sub) name = some (tm.nextHandle, sub) := by
  unfold addPubSubTopic
  rw [h]
  exact lookupEntries_append_none tm.topics name tm.nextHandle sub h

theorem lookupTopic_addPubSubTopic_ne (tm : TopicMap) (name : Nat) (sub : Bool)
    (n : Nat) (hne : n ≠ name) :
    lookupTopic (addPubSubTopic tm name sub) n = lookupTopic tm n := by
  unfold addPubSubTopic
  cases h : lookupTopic tm name with
  | none => exact lookupEntries_append_ne tm.topics name tm.nextHandle sub n (Ne.symm hne)
  | some hs =>
    obtain ⟨hid, subd⟩ := hs
    by_cases hcond : (!subd && sub) = true
    · simp only [hcond, if_true]
      exact lookupEntries_set_ne tm.topics name n (tm.nextHandle, sub) hne
    · dsimp only
      rw [if_neg hcond]

theorem subscribeAfterCommit_blockstore (st : ServerState) (req : PushLogRequest) :
    (subscribeAfterCommit st req).blockstore = st.blockstore := by
  unfold subscribeAfterCommit
  split <;> rfl

theorem subscribeAfterCommit_merges (st : ServerState) (req : PushLogRequest) :
    (subscribeAfterCommit st req).merges = st.merges := by
  unfold subscribeAfterCommit
  split <;> rfl

theorem emitPushLog_blockstore (st : ServerState) :
    (emitPushLog st).blockstore = st.blockstore := rfl

theorem emitPushLog_merges (st : ServerState) :
    (emitPushLog st).merges = st.merges := rfl

/-! ### Claim theorems -/

/-- C1: in an LWW-Register merge, setValue leaves the store unchanged when
the delta priority is below the stored priority; at equal priority it
compares the stored value, with its one-byte CRDT-type marker stripped,
lexicographically against the delta data and leaves the store unchanged when
stored is greater or equal, otherwise overwrites; at higher priority it
overwrites.  An overwrite stores the new value prefixed with the CRDT-type
marker byte and records the delta priority as the new stored priority. -/
theorem lww_setValue_cases (st : LWWStore) (val : List Nat) (p : Nat) :
    (p < st.priority → setValue st val p = st) ∧
    (p = st.priority →
      (bytesCompare (stripMarker ((storedRaw st).getD [])) val ≥ 0 →
        setValue st val p = st) ∧
      (bytesCompare (stripMarker ((storedRaw st).getD [])) val < 0 →
        (setValue st val p).priority = p ∧
        storedRaw (setValue st val p) = some (LWW_REGISTER :: val))) ∧
    (st.priority < p →
      (setValue st val p).priority = p ∧
      storedRaw (setValue st val p) = some (LWW_REGISTER :: val)) := by
  refine ⟨?_, ?_, ?_⟩
  · intro h
    simp [setValue, h]
  · intro h
    subst h
    constructor
    · intro hcmp
      simp [setValue, hcmp]
    · intro hcmp
      have hncmp : ¬ bytesCompare (stripMarker ((storedRaw st).getD [])) val ≥ 0 := by
        omega
      simp [setValue, hncmp, writeValue_priority, storedRaw_writeValue]
  · intro h
    have h1 : ¬ p < st.priority := by omega
    have h2 : ¬ p = st.priority := by omega
    simp [setValue, h1, h2, writeValue_priority, storedRaw_writeValue]

/-- C1 witness: a delta of priority 7 against stored priority 5 overwrites,
prefixing the marker byte and recording priority 7. -/
theorem lww_setValue_cases_witness :
    (setValue ⟨5, none, some [1, 100], none⟩ [200] 7).priority = 7 ∧
    storedRaw (setValue ⟨5, none, some [1, 100], none⟩ [200] 7) =
      some (LWW_REGISTER :: [200]) :=
  (lww_setValue_cases ⟨5, none, some [1, 100], none⟩ [200] 7).2.2 (by decide)

/-- C6: after a successful LWWRegister.Merge of a delta, the stored priority
for the key is at least the delta priority, in all branches of setValue. -/
theorem lww_merge_stored_priority_ge (st : LWWStore) (d : LWWRegDelta)
    (st2 : LWWStore) (h : LWWRegister.Merge st (Delta.lww d) = Except.ok st2) :
    d.Priority ≤ st2.priority := by
  have hst : st2 = setValue st d.Data d.Priority := by
    have h2 := h
    simp [LWWRegister.Merge] at h2
    exact h2.symm
  subst hst
  unfold setValue
  split_ifs with h1 h2 h3
  · omega
  · omega
  · simp [writeValue_priority]
  · simp [writeValue_priority]

/-- C6 witness: merging a priority-5 delta over stored priority 3 leaves
stored priority at least 5. -/
theorem lww_merge_stored_priority_ge_witness :
    (⟨0, 5, [9], []⟩ : LWWRegDelta).Priority ≤
      (setValue ⟨3, none, none, none⟩ [9] 5).priority :=
  lww_merge_stored_priority_ge ⟨3, none, none, none⟩ ⟨0, 5, [9], []⟩
    (setValue ⟨3, none, none, none⟩ [9] 5) rfl

/-- C9: in the equal-priority branch, an absent or failed current-value
lookup is treated as empty bytes: when the stored value is empty once the
marker is stripped, a delta with empty data leaves the store unchanged
while a delta with non-empty data overwrites. -/
theorem lww_setValue_equal_priority_empty (st : LWWStore) (val : List Nat)
    (hcur : stripMarker ((storedRaw st).getD []) = []) :
    (val = [] → setValue st val st.priority = st) ∧
    (val ≠ [] → (setValue st val st.priority).priority = st.priority ∧
      storedRaw (setValue st val st.priority) = some (LWW_REGISTER :: val)) := by
  constructor
  · intro hv
    subst hv
    simp [setValue, hcur, bytesCompare]
  · intro hv
    obtain ⟨a, as, rfl⟩ := List.exists_cons_of_ne_nil hv
    have hncmp : ¬ bytesCompare (stripMarker ((storedRaw st).getD [])) (a :: as) ≥ 0 := by
      rw [hcur]
      simp only [bytesCompare]
      omega
    simp [setValue, hncmp, writeValue_priority, storedRaw_writeValue]

/-- C9 witness: with nothing stored at priority 4, a non-empty delta at
priority 4 overwrites. -/
theorem lww_setValue_equal_priority_empty_witness :
    (setValue ⟨4, none, none, none⟩ [9] 4).priority = 4 ∧
    storedRaw (setValue ⟨4, none, none, none⟩ [9] 4) = some (LWW_REGISTER :: [9]) :=
  (lww_setValue_equal_priority_empty ⟨4, none, none, none⟩ [9] (by decide)).2 (by decide)

/-- C2 counterexample: the deferred EvtReceivedPushLog emission runs on every
exit of PushLog, so delivering the same request twice emits two events, not
one; the claim that exactly one event is emitted, only on the first
successful application, is false. -/
theorem pushLog_redelivery_event_counterexample :
    (pushLog (pushLog ⟨[], ⟨[], 0, []⟩, ⟨0, none, none, none⟩, 0, 0⟩
        ⟨7, 1, 2, 3, Except.ok ⟨⟨0, 5, [9], [1]⟩, []⟩, false⟩).state
      ⟨7, 1, 2, 3, Except.ok ⟨⟨0, 5, [9], [1]⟩, []⟩, false⟩).state.pushLogEvents = 2 ∧
    ¬ (pushLog (pushLog ⟨[], ⟨[], 0, []⟩, ⟨0, none, none, none⟩, 0, 0⟩
        ⟨7, 1, 2, 3, Except.ok ⟨⟨0, 5, [9], [1]⟩, []⟩, false⟩).state
      ⟨7, 1, 2, 3, Except.ok ⟨⟨0, 5, [9], [1]⟩, []⟩, false⟩).state.pushLogEvents = 1 := by
  decide

/-- C2 amended: delivering the same PushLogRequest twice yields exactly one
merge side-effect; the second delivery returns success, does not commit, and
performs no mutation other than emitting one more ReceivedPushLog event —
the event is emitted on every delivery, not only on the first. -/
theorem pushLog_duplicate_delivery (st : ServerState) (req : PushLogRequest)
    (content : BlockContent)
    (hfresh : req.Cid ∉ st.blockstore)
    (hdec : req.decodeResult = Except.ok content)
    (hproc : req.processLogFails = false) :
    (pushLog st req).reply = Except.ok () ∧
    (pushLog st req).state.merges = st.merges + 1 ∧
    pushLog (pushLog st req).state req =
      { state := emitPushLog (pushLog st req).state,
        reply := Except.ok (), committed := false } := by
  have h1 : pushLog st req =
      { state := emitPushLog (subscribeAfterCommit { st with blockstore := st.blockstore ++ [req.Cid], crdt := setValue st.crdt content.delta.Data content.delta.Priority, merges := st.merges + 1 } req),
        reply := Except.ok (), committed := true } := by
    simp [pushLog, hfresh, hdec, processLog, hproc]
  refine ⟨by rw [h1], ?_, ?_⟩
  · rw [h1]
    show (emitPushLog (subscribeAfterCommit _ req)).merges = st.merges + 1
    rw [emitPushLog_merges, subscribeAfterCommit_merges]
  · have hmem : req.Cid ∈ (pushLog st req).state.blockstore := by
      rw [h1]
      show req.Cid ∈ (emitPushLog (subscribeAfterCommit _ req)).blockstore
      rw [emitPushLog_blockstore, subscribeAfterCommit_blockstore]
      simp
    generalize hS : (pushLog st req).state = S at hmem ⊢
    simp [pushLog, hmem]

/-- C2 witness: a concrete fresh request delivered twice. -/
theorem pushLog_duplicate_delivery_witness :
    (pushLog ⟨[], ⟨[], 0, []⟩, ⟨0, none, none, none⟩, 0, 0⟩
        ⟨7, 1, 2, 3, Except.ok ⟨⟨0, 5, [9], [1]⟩, []⟩, false⟩).reply = Except.ok () ∧
    (pushLog ⟨[], ⟨[], 0, []⟩, ⟨0, none, none, none⟩, 0, 0⟩
        ⟨7, 1, 2, 3, Except.ok ⟨⟨0, 5, [9], [1]⟩, []⟩, false⟩).state.merges =
      (⟨[], ⟨[], 0, []⟩, ⟨0, none, none, none⟩, 0, 0⟩ : ServerState).merges + 1 ∧
    pushLog (pushLog ⟨[], ⟨[], 0, []⟩, ⟨0, none, none, none⟩, 0, 0⟩
        ⟨7, 1, 2, 3, Except.ok ⟨⟨0, 5, [9], [1]⟩, []⟩, false⟩).state
      ⟨7, 1, 2, 3, Except.ok ⟨⟨0, 5, [9], [1]⟩, []⟩, false⟩ =
      { state := emitPushLog (pushLog ⟨[], ⟨[], 0, []⟩, ⟨0, none, none, none⟩, 0, 0⟩
          ⟨7, 1, 2, 3, Except.ok ⟨⟨0, 5, [9], [1]⟩, []⟩, false⟩).state,
        reply := Except.ok (), committed := false } :=
  pushLog_duplicate_delivery ⟨[], ⟨[], 0, []⟩, ⟨0, none, none, none⟩, 0, 0⟩
    ⟨7, 1, 2, 3, Except.ok ⟨⟨0, 5, [9], [1]⟩, []⟩, false⟩
    ⟨⟨0, 5, [9], [1]⟩, []⟩ (by decide) rfl rfl

/-- C4 counterexample: a request whose processLog step (block store and CRDT
merge) fails is not aborted; the handler returns success and commits the
transaction, so the claim that any store or merge failure aborts the request
without committing is false. -/
theorem pushLog_processLog_failure_counterexample :
    (pushLog ⟨[], ⟨[], 0, []⟩, ⟨0, none, none, none⟩, 0, 0⟩
        ⟨7, 1, 2, 3, Except.ok ⟨⟨0, 5, [9], [1]⟩, []⟩, true⟩).reply = Except.ok () ∧
    (pushLog ⟨[], ⟨[], 0, []⟩, ⟨0, none, none, none⟩, 0, 0⟩
        ⟨7, 1, 2, 3, Except.ok ⟨⟨0, 5, [9], [1]⟩, []⟩, true⟩).committed = true := by
  decide

/-- C4 amended: a block decode failure aborts the request with an error
wrapping the original cause and without committing; but a failure of the
processLog step (block store and CRDT merge) is only logged — the handler
proceeds to commit the transaction, subscribes, and returns success. -/
theorem pushLog_failure_semantics (st : ServerState) (req : PushLogRequest)
    (hfresh : req.Cid ∉ st.blockstore) :
    (∀ cause, req.decodeResult = Except.error cause →
      pushLog st req =
        { state := emitPushLog st,
          reply := Except.error (PushErr.failedToDecodeBlock cause),
          committed := false }) ∧
    (∀ content, req.decodeResult = Except.ok content → req.processLogFails = true →
      pushLog st req =
        { state := emitPushLog (subscribeAfterCommit st req),
          reply := Except.ok (), committed := true }) := by
  constructor
  · intro cause hdec
    simp [pushLog, hfresh, hdec]
  · intro content hdec hproc
    simp [pushLog, hfresh, hdec, processLog, hproc]

/-- C4 witness: a concrete request whose block fails to decode. -/
theorem pushLog_failure_semantics_witness :
    pushLog ⟨[], ⟨[], 0, []⟩, ⟨0, none, none, none⟩, 0, 0⟩
        ⟨7, 1, 2, 3, Except.error 42, false⟩ =
      { state := emitPushLog ⟨[], ⟨[], 0, []⟩, ⟨0, none, none, none⟩, 0, 0⟩,
        reply := Except.error (PushErr.failedToDecodeBlock 42),
        committed := false } :=
  (pushLog_failure_semantics ⟨[], ⟨[], 0, []⟩, ⟨0, none, none, none⟩, 0, 0⟩
    ⟨7, 1, 2, 3, Except.error 42, false⟩ (by decide)).1 42 rfl

/-- C5 counterexample: for a priority-1 (document create) update with docKey
1 and schema id 2 against an empty topic table, handleDocCreateLog publishes
the log on the schema (collection) topic only; the docKey topic is not
published on, so the claim that the log is published on the docKey topic is
false. -/
theorem broadcast_create_publish_counterexample :
    (handleBroadcastStep ⟨[], 0, []⟩ ⟨1, 9, 2, 1⟩).2 = [2] ∧
    1 ∉ (handleBroadcastStep ⟨[], 0, []⟩ ⟨1, 9, 2, 1⟩).2 := by
  decide

/-- C5 amended: on a priority-1 update the broadcast loop registers the
docKey topic with subscribe flag equal to the negation of the topic table
membership of the collection topic, and publishes the log on the collection
(schema id) topic, not the docKey topic; on a priority-0 update it logs and
performs no publish or registration. -/
theorem broadcast_create_and_skip (tm : TopicMap) (u : Update)
    (hfresh : lookupTopic tm u.DocKey = none) (hne : u.DocKey ≠ u.SchemaID) :
    (u.Priority = 1 →
      (handleBroadcastStep tm u).2 = [u.SchemaID] ∧
      lookupTopic (handleBroadcastStep tm u).1 u.DocKey =
        some (tm.nextHandle, !(hasPubSubTopic tm u.SchemaID))) ∧
    (u.Priority = 0 → handleBroadcastStep tm u = (tm, [])) := by
  constructor
  · intro hp
    have hstep : handleBroadcastStep tm u = RegisterNewDocument tm u.DocKey u.SchemaID := by
      simp [handleBroadcastStep, hp]
    rw [hstep]
    unfold RegisterNewDocument
    have hlk1 : lookupTopic (addPubSubTopic tm u.DocKey (!(hasPubSubTopic tm u.SchemaID)))
        u.DocKey = some (tm.nextHandle, !(hasPubSubTopic tm u.SchemaID)) :=
      lookupTopic_addPubSubTopic_fresh tm u.DocKey _ hfresh
    cases h2 : lookupTopic (addPubSubTopic tm u.DocKey (!(hasPubSubTopic tm u.SchemaID)))
        u.SchemaID with
    | none =>
      simp only [publishLog, h2]
      refine ⟨trivial, ?_⟩
      rw [lookupTopic_addPubSubTopic_ne _ u.SchemaID false u.DocKey hne]
      exact hlk1
    | some w =>
      simp only [publishLog, h2]
      exact ⟨trivial, hlk1⟩
  · intro hp
    simp [handleBroadcastStep, hp]

/-- C5 witness: with the collection topic 5 already subscribed, a priority-1
update for fresh docKey 1 publishes on topic 5 and registers the docKey
topic publish-only. -/
theorem broadcast_create_and_skip_witness :
    (handleBroadcastStep ⟨[(5, 3, true)], 7, []⟩ ⟨1, 9, 5, 1⟩).2 = [5] ∧
    lookupTopic (handleBroadcastStep ⟨[(5, 3, true)], 7, []⟩ ⟨1, 9, 5, 1⟩).1 1 =
      some (7, !(hasPubSubTopic ⟨[(5, 3, true)], 7, []⟩ 5)) :=
  (broadcast_create_and_skip ⟨[(5, 3, true)], 7, []⟩ ⟨1, 9, 5, 1⟩ rfl (by decide)).1 rfl

/-- C7: every topic is absent, present publish-only, or present subscribed,
and addPubSubTopic transitions it as claimed: present publish-only with
subscribe requested closes the existing handle and stores a fresh subscribed
one; present and already subscribed is a no-op; absent creates a handle in
the requested mode. -/
theorem addPubSubTopic_transitions (tm : TopicMap) (name : Nat) (sub : Bool) :
    (∀ h, lookupTopic tm name = some (h, false) →
      lookupTopic (addPubSubTopic tm name true) name = some (tm.nextHandle, true) ∧
      h ∈ (addPubSubTopic tm name true).closed) ∧
    (∀ h, lookupTopic tm name = some (h, true) → addPubSubTopic tm name sub = tm) ∧
    (lookupTopic tm name = none →
      lookupTopic (addPubSubTopic tm name sub) name = some (tm.nextHandle, sub) ∧
      (addPubSubTopic tm name sub).closed = tm.closed) := by
  refine ⟨?_, ?_, ?_⟩
  · intro h hlk
    unfold addPubSubTopic
    rw [hlk]
    simp only [Bool.not_false, Bool.true_and, if_true]
    constructor
    · exact lookupEntries_set_self tm.topics name (tm.nextHandle, true) (h, false) hlk
    · simp
  · intro h hlk
    unfold addPubSubTopic
    rw [hlk]
    simp
  · intro hlk
    unfold addPubSubTopic
    rw [hlk]
    exact ⟨lookupEntries_append_none tm.topics name tm.nextHandle sub hlk, rfl⟩

/-- C7 witness: topic 1 present publish-only with handle 0; requesting a
subscription closes handle 0 and installs the fresh handle 5 subscribed. -/
theorem addPubSubTopic_transitions_witness :
    lookupTopic (addPubSubTopic ⟨[(1, 0, false)], 5, []⟩ 1 true) 1 = some (5, true) ∧
    0 ∈ (addPubSubTopic ⟨[(1, 0, false)], 5, []⟩ 1 true).closed :=
  (addPubSubTopic_transitions ⟨[(1, 0, false)], 5, []⟩ 1 true).1 0 rfl

/-- C3: evidence of the code bug — a SetReplicator call on an initially
empty registry whose persistence step fails returns the persist error, yet
the entry added to the in-memory schema-to-peer map before the persist is
not rolled back: the map holds (10, [1]) although the pre-call map was empty
and nothing was persisted. -/
theorem setReplicator_persist_failure_no_rollback :
    (setReplicator ⟨[], [], []⟩ 0 1 [10] true).err = some RepErr.persistFailed ∧
    (setReplicator ⟨[], [], []⟩ 0 1 [10] true).state.replicators = [(10, [1])] ∧
    (setReplicator ⟨[], [], []⟩ 0 1 [10] true).state.persisted = [] := by
  decide

/-- C8: setReplicator targeting the node's own peer id returns the
self-target validation error with the state — in-memory replicator map,
peerstore, and persisted set — completely unchanged. -/
theorem setReplicator_rejects_self (st : RepState) (selfId : Nat)
    (schemas : List Nat) (persistFails : Bool) :
    setReplicator st selfId selfId schemas persistFails =
      { state := st, err := some RepErr.selfTarget } := by
  simp [setReplicator]

/-- C10: deleteReplicator targeting the node's own peer id returns the
self-target validation error before removing any replicator entry, clearing
any peerstore addresses, or touching the persisted set. -/
theorem deleteReplicator_rejects_self (st : RepState) (selfId : Nat)
    (schemas : List Nat) :
    deleteReplicator st selfId selfId schemas =
      { state := st, err := some RepErr.selfTarget } := by
  simp [deleteReplicator]
